import Mathlib

/- Shallow embedding of `src/fuzzy_bassoon/server.py`, a strict read-only
PostgreSQL gateway: query classification, table-reference extraction,
access control, LIMIT injection, and audit logging.  Query texts are
modelled as `String` / `List Char`; the process-wide `SecurityConfig`
snapshot is an explicit record passed to every function; the database is
an oracle argument. -/

/-- ASCII whitespace, as stripped by Python `str.strip()` and matched by the
regex class `\s` on the query texts in scope. -/
def isSpace (c : Char) : Bool :=
  c = ' ' || c = '\t' || c = '\n' || c = '\r' || c = '\x0b' || c = '\x0c'

/-- Python `str.upper()` (ASCII letters). -/
def upperL (l : List Char) : List Char := l.map Char.toUpper

/-- Python `str.lower()` (ASCII letters). -/
def lowerL (l : List Char) : List Char := l.map Char.toLower

/-- Python `str.lower()` on a `String`. -/
def lowerStr (s : String) : String := (lowerL s.toList).asString

/-- Drop the longest run of characters satisfying `p` from the end. -/
def rstripBy (p : Char → Bool) (l : List Char) : List Char :=
  (l.reverse.dropWhile p).reverse

/-- Python `str.strip()`. -/
def stripL (l : List Char) : List Char := rstripBy isSpace (l.dropWhile isSpace)

/-- Python `str.rstrip(";")`: every trailing semicolon is removed. -/
def rstripSemi (l : List Char) : List Char := rstripBy (fun c => c = ';') l

/-- Python substring containment `pat in s`. -/
def containsSub (pat l : List Char) : Bool := decide (pat <:+: l)

/-- The expression `query.upper().strip()` shared by `validate_read_only_query`
(line 106) and the LIMIT-injection step (line 314). -/
def upperStripped (query : String) : List Char := stripL (upperL query.toList)

/-- `server.py` line 109: the prefixes accepted by the classifier. -/
def allowed_prefixes : List String :=
  ["SELECT", "SHOW", "EXPLAIN", "DESCRIBE", "WITH"]

/-- `server.py` lines 115-118: the write keywords blocked by substring
containment. -/
def write_keywords : List String :=
  ["INSERT", "UPDATE", "DELETE", "DROP", "TRUNCATE",
   "ALTER", "CREATE", "GRANT", "REVOKE", "REPLACE", "MERGE"]

/-- Rejection reason for a query that does not start with a read keyword. -/
def onlyReadMsg : String :=
  "Only SELECT, SHOW, EXPLAIN, DESCRIBE, and WITH queries are allowed"

/-- Rejection reason naming a matched write keyword. -/
def writeKeywordMsg (keyword : String) : String :=
  "Write operation \x27" ++ keyword ++ "\x27 is not allowed in read-only mode"

/-- `server.py` lines 104-124 (`validate_read_only_query`): uppercase and
trim the query, require a read prefix, then reject if any write keyword
occurs anywhere in the text. -/
def validate_read_only_query (query : String) : Bool × String :=
  if allowed_prefixes.any (fun p => p.toList.isPrefixOf (upperStripped query)) then
    match write_keywords.find? (fun k => containsSub k.toList (upperStripped query)) with
    | some keyword => (false, writeKeywordMsg keyword)
    | none => (true, "Query validated")
  else
    (false, onlyReadMsg)

/-- Regex class `[a-zA-Z_]`. -/
def identStart (c : Char) : Bool := c.isAlpha || c = '_'

/-- Regex class `[a-zA-Z0-9_]`. -/
def identChar (c : Char) : Bool := c.isAlpha || c.isDigit || c = '_'

/-- Greedy match of one identifier `[a-zA-Z_][a-zA-Z0-9_]*`; returns the
identifier and the remaining input. -/
def takeIdent : List Char → Option (List Char × List Char)
  | [] => none
  | c :: cs =>
    if identStart c then some (c :: cs.takeWhile identChar, cs.dropWhile identChar)
    else none

/-- One attempt of the pattern
`KW\s+([a-zA-Z_][a-zA-Z0-9_]*\.)?([a-zA-Z_][a-zA-Z0-9_]*)` at the head of
`s` (`server.py` lines 133-136), with Python `re` semantics: greedy, and the
optional schema group backtracks to empty when no dot-qualified identifier
follows.  Returns the schema group (without its dot), the table group, and
the rest of the input after the match.  `matchIdentPart` handles the part
after the mandatory whitespace: the first identifier, optionally followed by
a dot and a second identifier. -/
def matchIdentPart (s2 : List Char) : Option (Option (List Char) × List Char × List Char) :=
  match takeIdent s2 with
  | none => none
  | some (id1, s3) =>
    match s3 with
    | '.' :: s4 =>
      match takeIdent s4 with
      | some (id2, s5) => some (some id1, id2, s5)
      | none => some (none, id1, s3)
    | _ => some (none, id1, s3)

def matchKw (kw s : List Char) : Option (Option (List Char) × List Char × List Char) :=
  if kw.isPrefixOf s then
    if ((s.drop kw.length).takeWhile isSpace).isEmpty then none
    else matchIdentPart ((s.drop kw.length).dropWhile isSpace)
  else none

/-- Fuelled scanner implementing `re.finditer`: repeatedly find the leftmost
match and resume right after it, so matches never overlap. -/
def scanKwFuel (kw : List Char) : Nat → List Char → List (Option (List Char) × List Char)
  | 0, _ => []
  | _, [] => []
  | fuel + 1, c :: cs =>
    match matchKw kw (c :: cs) with
    | some (sch, tab, rest) => (sch, tab) :: scanKwFuel kw fuel rest
    | none => scanKwFuel kw fuel cs

/-- All matches of the keyword pattern in `s`, left to right. -/
def scanKw (kw s : List Char) : List (Option (List Char) × List Char) :=
  scanKwFuel kw s.length s

/-- Python set-insertion on the accumulator list (first-insertion order). -/
def insertSet (acc : List String) (x : String) : List String :=
  if x ∈ acc then acc else acc ++ [x]

/-- The string `f"{schema}.{table}".lower()` built for one regex match; the
schema defaults to `public` when the group is absent (`server.py` line 142). -/
def mkRef (m : Option (List Char) × List Char) : String :=
  (lowerL ((m.1.getD "public".toList) ++ '.' :: m.2)).asString

/-- `server.py` lines 127-146 (`extract_tables_from_query`): scan the
uppercased text with the `FROM` pattern and then the `JOIN` pattern, adding
`f"{schema}.{table}".lower()` for every match to one set. -/
def extract_tables_from_query (query : String) : List String :=
  (scanKw "FROM".toList (upperL query.toList) ++ scanKw "JOIN".toList (upperL query.toList)).foldl
    (fun acc m => insertSet acc (mkRef m)) []

/-- `server.py` lines 37-58 (`SecurityConfig`): the process-wide policy
snapshot, here an explicit record; the field defaults are the
environment-variable defaults of lines 41-58. -/
structure SecurityConfig where
  MAX_ROWS_LIMIT : Nat := 1000
  QUERY_TIMEOUT_SECONDS : Nat := 30
  ALLOWED_TABLES : List String := []
  BLOCKED_SCHEMAS : List String := ["pg_catalog", "information_schema"]
  ENABLE_AUDIT_LOG : Bool := true
deriving DecidableEq

/-- Python `str.split(".")`. -/
def splitOnDot : List Char → List (List Char)
  | [] => [[]]
  | c :: cs =>
    match splitOnDot cs with
    | [] => [[c]]
    | s :: ss => if c = '.' then [] :: s :: ss else (c :: s) :: ss

/-- `table.split(".")[0]` on a stored `schema.table` string. -/
def schemaOf (t : String) : String := ((splitOnDot t.toList).headD []).asString

/-- `table.split(".")[-1]` on a stored `schema.table` string. -/
def tableOnly (t : String) : String := ((splitOnDot t.toList).getLastD []).asString

/-- Rendering of the Python `set` of allowed tables interpolated into the
denial message; elements appear in first-insertion order. -/
def showStrSet : List String → String
  | [] => "set()"
  | xs => "\x7b" ++ String.intercalate ", " (xs.map (fun s => "\x27" ++ s ++ "\x27")) ++ "\x7d"

/-- Denial reason naming a blocked schema. -/
def schemaDenyMsg (schema : String) : String :=
  "Access to schema \x27" ++ schema ++ "\x27 is not allowed"

/-- Denial reason naming the offending table and listing the allowed set. -/
def tableDenyMsg (t : String) (allowed : List String) : String :=
  "Access to table \x27" ++ t ++ "\x27 is not allowed. Allowed tables: " ++ showStrSet allowed

/-- `server.py` lines 149-169 (`validate_table_access`): deny the first
reference in a blocked schema; otherwise, when the allowlist is non-empty,
deny the first reference that is in it under neither name form. -/
def validate_table_access (cfg : SecurityConfig) (query : String) : Bool × String :=
  let referenced_tables := extract_tables_from_query query
  match referenced_tables.find? (fun t => decide (schemaOf t ∈ cfg.BLOCKED_SCHEMAS)) with
  | some t => (false, schemaDenyMsg (schemaOf t))
  | none =>
    if cfg.ALLOWED_TABLES.isEmpty then
      (true, "Table access validated")
    else
      match referenced_tables.find?
          (fun t => decide (t ∉ cfg.ALLOWED_TABLES ∧ tableOnly t ∉ cfg.ALLOWED_TABLES)) with
      | some t => (false, tableDenyMsg t cfg.ALLOWED_TABLES)
      | none => (true, "Table access validated")

/-- `server.py` lines 313-317: the LIMIT-injection rewrite inside the
`query_database` branch of `call_tool` — the spec's `ensureLimit`. -/
def ensure_limit (query : String) (maxRows : Nat) : String :=
  if containsSub "LIMIT".toList (upperStripped query) then query
  else (rstripSemi query.toList).asString ++ " LIMIT " ++ toString maxRows

/-- Validation stage of the `query_database` branch of `call_tool`
(`server.py` lines 288-317): everything before a connection is acquired. -/
inductive PreResult where
  | blocked (msg : String)
  | denied (msg : String)
  | execute (finalQuery : String)
deriving DecidableEq

/-- The two validations followed by the rewrite, in source order. -/
def query_pipeline (cfg : SecurityConfig) (query : String) : PreResult :=
  let v1 := validate_read_only_query query
  if v1.1 then
    let v2 := validate_table_access cfg query
    if v2.1 then PreResult.execute (ensure_limit query cfg.MAX_ROWS_LIMIT)
    else PreResult.denied v2.2
  else PreResult.blocked v1.2

/-- Arguments of one `audit_log` call (`server.py` lines 76-77), with the
Python keyword defaults. -/
structure AuditCall where
  event_type : String
  query : String := ""
  success : Bool := true
  error : String := ""
  rows_returned : Nat := 0
  execution_time : Nat := 0
deriving DecidableEq

/-- `server.py` lines 76-97 (`audit_log`): no-op when the audit toggle is
off, otherwise one appended record with the query text truncated to 500
characters. -/
def audit_log (cfg : SecurityConfig) (c : AuditCall) : List AuditCall :=
  if cfg.ENABLE_AUDIT_LOG then [{ c with query := c.query.take 500 }] else []

/-- Outcome of the executor step `conn.fetch` under `asyncio.wait_for`
(`server.py` lines 320-332): the database acts as an oracle. -/
inductive ExecResult where
  | timeout
  | ok (rows : Nat) (elapsed : Nat)
  | err (msg : String)
deriving DecidableEq

/-- The five terminal outcomes of a `query_database` request. -/
inductive Outcome where
  | rejected (msg : String)
  | denied (msg : String)
  | timedOut (msg : String)
  | succeeded (rows : Nat)
  | failed (msg : String)
deriving DecidableEq

/-- Error text of `server.py` line 327. -/
def timeoutMsg (cfg : SecurityConfig) : String :=
  "Query exceeded timeout limit of " ++ toString cfg.QUERY_TIMEOUT_SECONDS ++ "s"

/-- `server.py` lines 288-360 together with the outer `except` of lines
480-486: the `query_database` branch of `call_tool`, returning the request
outcome and the list of `audit_log` calls made on the way. -/
def query_database (cfg : SecurityConfig) (query : String) (params : List String)
    (exec : String → List String → ExecResult) : Outcome × List AuditCall :=
  match query_pipeline cfg query with
  | PreResult.blocked m =>
    (Outcome.rejected m,
      [{ event_type := "QUERY_BLOCKED", query := query, success := false, error := m }])
  | PreResult.denied m =>
    (Outcome.denied m,
      [{ event_type := "ACCESS_DENIED", query := query, success := false, error := m }])
  | PreResult.execute fq =>
    match exec fq params with
    | ExecResult.timeout =>
      (Outcome.timedOut (timeoutMsg cfg),
        [{ event_type := "QUERY_TIMEOUT", query := fq, success := false, error := timeoutMsg cfg }])
    | ExecResult.ok n t =>
      (Outcome.succeeded n,
        [{ event_type := "QUERY_SUCCESS", query := fq, success := true,
           rows_returned := n, execution_time := t }])
    | ExecResult.err m =>
      (Outcome.failed m,
        [{ event_type := "ERROR", success := false, error := m }])

/-- Result of the access check in the `get_table_schema` branch of
`call_tool` (`server.py` lines 362-397): either a denial (with the response
text and the audit error text) or the catalog introspection query issued
with these bind parameters. -/
inductive SchemaToolResult where
  | denied (response : String) (auditError : String)
  | introspect (schemaName tableName : String)
deriving DecidableEq

/-- `server.py` lines 362-397: the schema blocklist check, then the
allowlist check on `f"{schema_name}.{table_name}"` or the bare table name;
both compare the caller-supplied strings verbatim. -/
def get_table_schema_tool (cfg : SecurityConfig) (table_name schema_name : String) :
    SchemaToolResult :=
  if schema_name ∈ cfg.BLOCKED_SCHEMAS then
    SchemaToolResult.denied
      ("❌ Access to schema \x27" ++ schema_name ++ "\x27 is not allowed")
      ("Schema " ++ schema_name ++ " is blocked")
  else if cfg.ALLOWED_TABLES.isEmpty then
    SchemaToolResult.introspect schema_name table_name
  else if (schema_name ++ "." ++ table_name) ∉ cfg.ALLOWED_TABLES ∧
      table_name ∉ cfg.ALLOWED_TABLES then
    SchemaToolResult.denied
      ("❌ Access to table \x27" ++ schema_name ++ "." ++ table_name ++ "\x27 is not allowed")
      ("Table " ++ schema_name ++ "." ++ table_name ++ " not in whitelist")
  else
    SchemaToolResult.introspect schema_name table_name

/-- Observable database-side effects of a tool call. -/
inductive DBEffect where
  | createPool
  | fetch (query : String)
deriving DecidableEq

/-- `server.py` lines 176-208 (`get_db_pool`): the process-wide pool handle,
created on first use.  The pool object itself is opaque to the core and is
modelled as `Unit`. -/
def get_db_pool (db_pool : Option Unit) : Option Unit × List DBEffect :=
  match db_pool with
  | some p => (some p, [])
  | none => (some (), [DBEffect.createPool])

/-- The JSON snapshot assembled by the `get_security_config` branch
(`server.py` lines 456-472); `allowedTables` is either the configured list
or the literal string `"ALL (no restrictions)"`. -/
structure SecuritySnapshot where
  maxRowsLimit : Nat
  queryTimeoutSeconds : Nat
  allowedTables : Sum (List String) String
  blockedSchemas : List String
  auditLogging : Bool
  allowedOperations : List String
  blockedOperations : List String
deriving DecidableEq

/-- Snapshot construction of `server.py` lines 457-467. -/
def get_security_config_snapshot (cfg : SecurityConfig) : SecuritySnapshot where
  maxRowsLimit := cfg.MAX_ROWS_LIMIT
  queryTimeoutSeconds := cfg.QUERY_TIMEOUT_SECONDS
  allowedTables :=
    if cfg.ALLOWED_TABLES.isEmpty then Sum.inr "ALL (no restrictions)"
    else Sum.inl cfg.ALLOWED_TABLES
  blockedSchemas := cfg.BLOCKED_SCHEMAS
  auditLogging := cfg.ENABLE_AUDIT_LOG
  allowedOperations := ["SELECT", "SHOW", "EXPLAIN", "DESCRIBE", "WITH"]
  blockedOperations :=
    ["INSERT", "UPDATE", "DELETE", "DROP", "TRUNCATE", "ALTER", "CREATE", "GRANT", "REVOKE"]

/-- The `get_security_config` branch of `call_tool`, including the shared
prologue `pool = await get_db_pool()` of `server.py` line 286: returns the
new pool handle, the database effects performed, and the snapshot. -/
def call_tool_get_security_config (cfg : SecurityConfig) (db_pool : Option Unit) :
    (Option Unit × List DBEffect) × SecuritySnapshot :=
  (get_db_pool db_pool, get_security_config_snapshot cfg)

/-- The §8 example policy: `allowedTables = {"public.orders"}` and
`blockedSchemas = {"pg_catalog"}`. -/
def cfgExample : SecurityConfig :=
  { ALLOWED_TABLES := ["public.orders"], BLOCKED_SCHEMAS := ["pg_catalog"] }

/-- A policy with only a schema blocklist (empty allowlist). -/
def cfgBlockedOnly : SecurityConfig :=
  { ALLOWED_TABLES := [], BLOCKED_SCHEMAS := ["pg_catalog"] }

/- Helper lemmas about the string primitives. -/

theorem asString_toList (l : List Char) : (List.asString l).toList = l := rfl

theorem toList_append (s t : String) : (s ++ t).toList = s.toList ++ t.toList :=
  String.data_append s t

theorem containsSub_iff (pat l : List Char) : containsSub pat l = true ↔ pat <:+: l := by
  simp [containsSub]

theorem suffix_dropWhile_append (p : Char → Bool) (x : List Char) (c : Char)
    (ys : List Char) (hc : p c = false) :
    (c :: ys) <:+ List.dropWhile p (x ++ c :: ys) := by
  rw [List.dropWhile_append]
  split
  · rw [List.dropWhile_cons]
    simp [hc]
  · exact List.suffix_append _ _

theorem rstripBy_prefix_self (p : Char → Bool) (l : List Char) : rstripBy p l <+: l := by
  have h := List.dropWhile_suffix (l := l.reverse) p
  have h2 := List.reverse_prefix.mpr h
  simpa [rstripBy] using h2

theorem stripL_infix_self (l : List Char) : stripL l <:+: l := by
  have h1 : stripL l <+: l.dropWhile isSpace := rstripBy_prefix_self isSpace _
  have h2 : l.dropWhile isSpace <:+ l := List.dropWhile_suffix isSpace
  exact List.IsInfix.trans ( List.IsPrefix.isInfix h1) ( List.IsSuffix.isInfix h2)

theorem upperL_append (a b : List Char) : upperL (a ++ b) = upperL a ++ upperL b := by
  simp [upperL]

theorem limit_infix_upper (a b : List Char) :
    "LIMIT".toList <:+: upperL (a ++ " LIMIT ".toList ++ b) := by
  have e : upperL (a ++ " LIMIT ".toList ++ b) = upperL a ++ " LIMIT ".toList ++ upperL b := by
    rw [upperL_append, upperL_append]
    have e2 : upperL " LIMIT ".toList = " LIMIT ".toList := rfl
    rw [e2]
  rw [e]
  have h5 : "LIMIT".toList <:+: " LIMIT ".toList := by decide
  exact List.IsInfix.trans h5 ( List.infix_append _ _ _)

theorem limit_infix_stripL {l : List Char} (h : "LIMIT".toList <:+: l) :
    "LIMIT".toList <:+: stripL l := by
  obtain ⟨x, y, hxy⟩ := h
  subst hxy
  unfold stripL
  have h1 : ('L' :: ("IMIT".toList ++ y)) <:+ (x ++ "LIMIT".toList ++ y).dropWhile isSpace := by
    have e : x ++ "LIMIT".toList ++ y = x ++ 'L' :: ("IMIT".toList ++ y) := by
      rw [List.append_assoc]
      rfl
    rw [e]
    exact suffix_dropWhile_append isSpace x 'L' ("IMIT".toList ++ y) (by decide)
  obtain ⟨w, hw⟩ := h1
  have hw' : (x ++ "LIMIT".toList ++ y).dropWhile isSpace = w ++ "LIMIT".toList ++ y := by
    rw [← hw, List.append_assoc]
    rfl
  unfold rstripBy
  rw [hw']
  have h2 : ('T' :: ("IMIL".toList ++ w.reverse)) <:+
      (w ++ "LIMIT".toList ++ y).reverse.dropWhile isSpace := by
    have e2 : (w ++ "LIMIT".toList ++ y).reverse
        = y.reverse ++ 'T' :: ("IMIL".toList ++ w.reverse) := by
      rw [List.reverse_append, List.reverse_append]
      have e3 : ("LIMIT".toList).reverse = 'T' :: "IMIL".toList := rfl
      rw [e3]
      rfl
    rw [e2]
    exact suffix_dropWhile_append isSpace y.reverse 'T' ("IMIL".toList ++ w.reverse) (by decide)
  obtain ⟨v, hv⟩ := h2
  refine ⟨w, v.reverse, ?_⟩
  rw [← hv, List.reverse_append]
  have e4 : ('T' :: ("IMIL".toList ++ w.reverse)).reverse = w ++ "LIMIT".toList := by
    simp
  rw [e4]

theorem ensure_limit_upper_contains (query : String) (n : Nat) :
    "LIMIT".toList <:+: upperL (ensure_limit query n).toList := by
  rw [ensure_limit]
  split
  · rename_i h
    have h' : "LIMIT".toList <:+: stripL (upperL query.toList) := ( containsSub_iff _ _).mp h
    exact List.IsInfix.trans h' (stripL_infix_self _)
  · have e : ((rstripSemi query.toList).asString ++ " LIMIT " ++ toString n).toList
        = rstripSemi query.toList ++ " LIMIT ".toList ++ (toString n).toList := by
      rw [toList_append, toList_append, asString_toList]
    rw [e]
    exact limit_infix_upper _ _

theorem limit_in_upper_iff (query : String) :
    containsSub "LIMIT".toList (upperStripped query)
      = containsSub "LIMIT".toList (upperL query.toList) := by
  simp only [containsSub, decide_eq_decide]
  constructor
  · intro h
    exact List.IsInfix.trans h (stripL_infix_self (upperL query.toList))
  · intro h
    exact limit_infix_stripL h

/-- C4: the Rewriter is idempotent — applying `ensure_limit` to its own
output never appends a second LIMIT clause, because the presence check is
textual containment of the token `LIMIT` anywhere in the text. -/
theorem claim_C4_rewriter_idempotent (query : String) (maxRows : Nat) :
    ensure_limit (ensure_limit query maxRows) maxRows = ensure_limit query maxRows := by
  by_cases h : containsSub "LIMIT".toList (upperStripped query) = true
  · have e : ensure_limit query maxRows = query := by
      rw [ensure_limit, if_pos h]
    rw [e, ensure_limit, if_pos h]
  · have hc : containsSub "LIMIT".toList (upperStripped (ensure_limit query maxRows)) = true := by
      rw [containsSub_iff]
      exact limit_infix_stripL (ensure_limit_upper_contains query maxRows)
    conv_lhs => rw [ensure_limit]
    rw [if_pos hc]

/-- C3 counterexample: on `"SELECT 1;;"` (whose uppercased form contains no
`LIMIT` token) the code strips BOTH trailing semicolons — `str.rstrip(";")`
removes every trailing semicolon, not a single one — so the rewrite does not
equal the single-semicolon strip the claim describes. -/
theorem claim_C3_counterexample :
    containsSub "LIMIT".toList (upperL "SELECT 1;;".toList) = false ∧
    ensure_limit "SELECT 1;;" 1000 = "SELECT 1 LIMIT 1000" ∧
    ensure_limit "SELECT 1;;" 1000 ≠ "SELECT 1; LIMIT 1000" := by
  decide

/-- C3 amended: for every query text whose uppercased form does not contain
the token `LIMIT`, the Rewriter strips ALL trailing semicolons from the text
and appends a space-separated `LIMIT <maxRows>` clause, so the rewritten
query ends with `LIMIT <maxRows>`; a query whose uppercased form contains
`LIMIT` anywhere is returned unmodified. -/
theorem claim_C3_rewriter (query : String) (maxRows : Nat) :
    (containsSub "LIMIT".toList (upperL query.toList) = false →
      ensure_limit query maxRows
          = (rstripSemi query.toList).asString ++ " LIMIT " ++ toString maxRows ∧
        ("LIMIT " ++ toString maxRows).toList <:+ (ensure_limit query maxRows).toList) ∧
    (containsSub "LIMIT".toList (upperL query.toList) = true →
      ensure_limit query maxRows = query) := by
  constructor
  · intro h
    have h' : containsSub "LIMIT".toList (upperStripped query) = false := by
      rw [limit_in_upper_iff, h]
    have e : ensure_limit query maxRows
        = (rstripSemi query.toList).asString ++ " LIMIT " ++ toString maxRows := by
      rw [ensure_limit, if_neg (by rw [h']; exact Bool.false_ne_true)]
    refine ⟨e, ?_⟩
    rw [e]
    simp only [toList_append, asString_toList]
    rw [List.append_assoc]
    have h3 : "LIMIT ".toList ++ (toString maxRows).toList
        <:+ " LIMIT ".toList ++ (toString maxRows).toList := by
      have e2 : " LIMIT ".toList ++ (toString maxRows).toList
          = ' ' :: ("LIMIT ".toList ++ (toString maxRows).toList) := rfl
      rw [e2]
      exact List.suffix_cons ' ' _
    exact List.IsSuffix.trans h3 (List.suffix_append _ _)
  · intro h
    have h' : containsSub "LIMIT".toList (upperStripped query) = true := by
      rw [limit_in_upper_iff, h]
    rw [ensure_limit, if_pos h']

/-- C3 witness: pipeline example of §8 — with `maxRows = 50`, a query
without a LIMIT clause gets `LIMIT 50` appended, and a query with an
existing `LIMIT 10` is left unmodified. -/
theorem claim_C3_rewriter_witness :
    (ensure_limit "SELECT * FROM orders" 50
        = (rstripSemi "SELECT * FROM orders".toList).asString ++ " LIMIT " ++ toString 50 ∧
      ("LIMIT " ++ toString 50).toList <:+ (ensure_limit "SELECT * FROM orders" 50).toList) ∧
    ensure_limit "SELECT * FROM orders LIMIT 10" 50 = "SELECT * FROM orders LIMIT 10" := by
  constructor
  · exact (claim_C3_rewriter "SELECT * FROM orders" 50).1 (by decide)
  · exact (claim_C3_rewriter "SELECT * FROM orders LIMIT 10" 50).2 (by decide)

/-- C6: every query text handed to the Executor by the `query_database`
branch has already been accepted by the Classifier and by AccessGuard, and
its uppercased form contains a `LIMIT` token. -/
theorem claim_C6_pipeline_invariant (cfg : SecurityConfig) (query fq : String)
    (h : query_pipeline cfg query = PreResult.execute fq) :
    (validate_read_only_query query).1 = true ∧
    (validate_table_access cfg query).1 = true ∧
    "LIMIT".toList <:+: upperL fq.toList := by
  simp only [query_pipeline] at h
  by_cases h1 : (validate_read_only_query query).1 = true
  · rw [if_pos h1] at h
    by_cases h2 : (validate_table_access cfg query).1 = true
    · rw [if_pos h2] at h
      have hfq : fq = ensure_limit query cfg.MAX_ROWS_LIMIT := by
        cases h
        rfl
      subst hfq
      exact ⟨h1, h2, ensure_limit_upper_contains query cfg.MAX_ROWS_LIMIT⟩
    · rw [if_neg h2] at h
      cases h
  · rw [if_neg h1] at h
    cases h

/-- C6 witness: the §8 policy and `SELECT * FROM orders`, which the
pipeline rewrites to `SELECT * FROM orders LIMIT 1000`. -/
theorem claim_C6_pipeline_invariant_witness :
    (validate_read_only_query "SELECT * FROM orders").1 = true ∧
    (validate_table_access cfgExample "SELECT * FROM orders").1 = true ∧
    "LIMIT".toList <:+: upperL ("SELECT * FROM orders LIMIT 1000").toList :=
  claim_C6_pipeline_invariant cfgExample "SELECT * FROM orders"
    "SELECT * FROM orders LIMIT 1000" (by decide)

/-- C7: when table extraction returns the empty set, AccessGuard allows the
request under every policy, including policies with a non-empty allowlist
and non-empty blocked-schema set. -/
theorem claim_C7_empty_extraction_allows (cfg : SecurityConfig) (query : String)
    (h : extract_tables_from_query query = []) :
    validate_table_access cfg query = (true, "Table access validated") := by
  simp only [validate_table_access, h, List.find?]
  split <;> rfl

/-- C7 witness: `SELECT 1` has no table reference, and is allowed even
under the restrictive §8 policy. -/
theorem claim_C7_empty_extraction_allows_witness :
    validate_table_access cfgExample "SELECT 1" = (true, "Table access validated") :=
  claim_C7_empty_extraction_allows cfgExample "SELECT 1" (by decide)

theorem table_in_tableDenyMsg (t : String) (allowed : List String) :
    t.toList <:+: (tableDenyMsg t allowed).toList := by
  unfold tableDenyMsg
  simp only [toList_append]
  rw [List.append_assoc]
  exact List.infix_append _ _ _

/-- C2: AccessGuard evaluates the blocked-schema rule before the allowlist
rule — a reference in a blocked schema denies the request with a reason
naming the schema; otherwise, with a non-empty allowlist, a reference that
is a member under neither the `schema.table` nor the bare `table` form
denies with a reason naming the offending table and listing the allowed
set; otherwise the request is allowed.  Concretely, under the §8 policy
(`allowedTables = {"public.orders"}`, `blockedSchemas = {"pg_catalog"}`), a
query referencing only `orders` is allowed, one referencing `customers` is
denied naming `customers`, and one referencing `pg_catalog.pg_tables` is
denied naming the schema `pg_catalog` (the schema rule wins). -/
theorem claim_C2_access_guard (cfg : SecurityConfig) (query : String) :
    ((∃ t ∈ extract_tables_from_query query, schemaOf t ∈ cfg.BLOCKED_SCHEMAS) →
      (validate_table_access cfg query).1 = false ∧
      ∃ t ∈ extract_tables_from_query query, schemaOf t ∈ cfg.BLOCKED_SCHEMAS ∧
        (validate_table_access cfg query).2 = schemaDenyMsg (schemaOf t)) ∧
    ((∀ t ∈ extract_tables_from_query query, schemaOf t ∉ cfg.BLOCKED_SCHEMAS) →
      cfg.ALLOWED_TABLES ≠ [] →
      (∃ t ∈ extract_tables_from_query query,
        t ∉ cfg.ALLOWED_TABLES ∧ tableOnly t ∉ cfg.ALLOWED_TABLES) →
      (validate_table_access cfg query).1 = false ∧
      ∃ t ∈ extract_tables_from_query query,
        t ∉ cfg.ALLOWED_TABLES ∧ tableOnly t ∉ cfg.ALLOWED_TABLES ∧
        (validate_table_access cfg query).2 = tableDenyMsg t cfg.ALLOWED_TABLES ∧
        t.toList <:+: (validate_table_access cfg query).2.toList) ∧
    ((∀ t ∈ extract_tables_from_query query, schemaOf t ∉ cfg.BLOCKED_SCHEMAS) →
      (∀ t ∈ extract_tables_from_query query,
        cfg.ALLOWED_TABLES = [] ∨ t ∈ cfg.ALLOWED_TABLES ∨ tableOnly t ∈ cfg.ALLOWED_TABLES) →
      validate_table_access cfg query = (true, "Table access validated")) ∧
    validate_table_access cfgExample "SELECT * FROM orders" = (true, "Table access validated") ∧
    validate_table_access cfgExample "SELECT * FROM customers"
      = (false, tableDenyMsg "public.customers" ["public.orders"]) ∧
    "customers".toList <:+: (validate_table_access cfgExample "SELECT * FROM customers").2.toList ∧
    validate_table_access cfgExample "SELECT * FROM pg_catalog.pg_tables"
      = (false, schemaDenyMsg "pg_catalog") ∧
    "pg_catalog".toList <:+:
      (validate_table_access cfgExample "SELECT * FROM pg_catalog.pg_tables").2.toList := by
  refine ⟨?_, ?_, ?_, by decide, by decide, by decide, by decide, by decide⟩
  · rintro ⟨t0, ht0, hb⟩
    rcases hfind : (extract_tables_from_query query).find?
        (fun t => decide (schemaOf t ∈ cfg.BLOCKED_SCHEMAS)) with _ | t
    · rw [List.find?_eq_none] at hfind
      exact absurd (decide_eq_true hb) (hfind t0 ht0)
    · have hres : validate_table_access cfg query = (false, schemaDenyMsg (schemaOf t)) := by
        simp only [validate_table_access, hfind]
      have hpa0 := List.find?_some hfind
      have hpa : schemaOf t ∈ cfg.BLOCKED_SCHEMAS := by simpa using hpa0
      refine ⟨by rw [hres], t, List.mem_of_find?_eq_some hfind, hpa, by rw [hres]⟩
  · intro hnb hne
    rintro ⟨t0, ht0, hv⟩
    have hfind1 : (extract_tables_from_query query).find?
        (fun t => decide (schemaOf t ∈ cfg.BLOCKED_SCHEMAS)) = none := by
      rw [List.find?_eq_none]
      intro t ht
      simpa using hnb t ht
    have hemp : cfg.ALLOWED_TABLES.isEmpty = false := by
      rw [List.isEmpty_eq_false]
      exact hne
    rcases hfind2 : (extract_tables_from_query query).find?
        (fun t => decide (t ∉ cfg.ALLOWED_TABLES ∧ tableOnly t ∉ cfg.ALLOWED_TABLES)) with _ | t
    · rw [List.find?_eq_none] at hfind2
      exact absurd (decide_eq_true hv) (hfind2 t0 ht0)
    · have hres : validate_table_access cfg query
          = (false, tableDenyMsg t cfg.ALLOWED_TABLES) := by
        simp only [validate_table_access, hfind1, hemp, hfind2]
        rfl
      have hpa2 := List.find?_some hfind2
      have hp : t ∉ cfg.ALLOWED_TABLES ∧ tableOnly t ∉ cfg.ALLOWED_TABLES := by
        simpa using hpa2
      refine ⟨by rw [hres], t, List.mem_of_find?_eq_some hfind2, hp.1, hp.2, by rw [hres],
        by rw [hres]; exact table_in_tableDenyMsg t cfg.ALLOWED_TABLES⟩
  · intro hnb hall
    have hfind1 : (extract_tables_from_query query).find?
        (fun t => decide (schemaOf t ∈ cfg.BLOCKED_SCHEMAS)) = none := by
      rw [List.find?_eq_none]
      intro t ht
      simpa using hnb t ht
    by_cases hA : cfg.ALLOWED_TABLES = []
    · have hemp : cfg.ALLOWED_TABLES.isEmpty = true := by
        rw [List.isEmpty_eq_true]
        exact hA
      simp only [validate_table_access, hfind1, hemp]
      rfl
    · have hemp : cfg.ALLOWED_TABLES.isEmpty = false := by
        rw [List.isEmpty_eq_false]
        exact hA
      have hfind2 : (extract_tables_from_query query).find?
          (fun t => decide (t ∉ cfg.ALLOWED_TABLES ∧ tableOnly t ∉ cfg.ALLOWED_TABLES)) = none := by
        rw [List.find?_eq_none]
        intro t ht
        rcases hall t ht with h1 | h2 | h3
        · exact absurd h1 hA
        · simp [h2]
        · simp [h3]
      simp only [validate_table_access, hfind1, hemp, hfind2]
      rfl

/-- C2 witness: the blocked-schema conjunct applied at the §8 policy and a
query referencing `pg_catalog.pg_tables`. -/
theorem claim_C2_access_guard_witness :
    (validate_table_access cfgExample "SELECT * FROM pg_catalog.pg_tables").1 = false ∧
    ∃ t ∈ extract_tables_from_query "SELECT * FROM pg_catalog.pg_tables",
      schemaOf t ∈ cfgExample.BLOCKED_SCHEMAS ∧
      (validate_table_access cfgExample "SELECT * FROM pg_catalog.pg_tables").2
        = schemaDenyMsg (schemaOf t) :=
  (claim_C2_access_guard cfgExample "SELECT * FROM pg_catalog.pg_tables").1 (by decide)

/-- C5 counterexample: the claim requires the check to be case-insensitive
(as §3 establishes for TableRef), but the `get_table_schema` branch compares
the caller-supplied strings verbatim: with `blockedSchemas = {"pg_catalog"}`
and empty allowlist, asking for schema `"PG_CATALOG"` — whose lower-casing
is the blocked `"pg_catalog"` — is NOT denied: the introspection query is
issued with the schema as given. -/
theorem claim_C5_counterexample :
    lowerStr "PG_CATALOG" = "pg_catalog" ∧
    "pg_catalog" ∈ cfgBlockedOnly.BLOCKED_SCHEMAS ∧
    get_table_schema_tool cfgBlockedOnly "pg_tables" "PG_CATALOG"
      = SchemaToolResult.introspect "PG_CATALOG" "pg_tables" := by
  decide

/-- C5 amended: `get_table_schema` is subject to the same shape of
schema/table access check as `query_database` before its introspection query
is issued — denied exactly when the requested schema is in
`BLOCKED_SCHEMAS`, or the allowlist is non-empty and neither
`"schema.table"` nor the bare table name is a member — but the comparison is
case-sensitive on the caller-supplied strings (no lower-casing is applied,
unlike the TableRefs of `extract_tables_from_query`). -/
theorem claim_C5_schema_tool_guard (cfg : SecurityConfig) (table_name schema_name : String) :
    (∃ r e, get_table_schema_tool cfg table_name schema_name = SchemaToolResult.denied r e) ↔
      (schema_name ∈ cfg.BLOCKED_SCHEMAS ∨
        (cfg.ALLOWED_TABLES ≠ [] ∧ (schema_name ++ "." ++ table_name) ∉ cfg.ALLOWED_TABLES ∧
          table_name ∉ cfg.ALLOWED_TABLES)) := by
  unfold get_table_schema_tool
  split_ifs with h1 h2 h3
  · exact iff_of_true ⟨_, _, rfl⟩ (Or.inl h1)
  · apply iff_of_false
    · rintro ⟨r, e, h⟩
      cases h
    · rintro (h | ⟨hne, _, _⟩)
      · exact h1 h
      · exact hne (List.isEmpty_eq_true.mp h2)
  · refine iff_of_true ⟨_, _, rfl⟩ (Or.inr ⟨?_, h3.1, h3.2⟩)
    intro hA
    rw [← List.isEmpty_eq_true] at hA
    exact h2 hA
  · apply iff_of_false
    · rintro ⟨r, e, h⟩
      cases h
    · rintro (h | ⟨hne, hfull, hbare⟩)
      · exact h1 h
      · exact h3 ⟨hfull, hbare⟩

/-- C5 witness: under the §8 policy, `get_table_schema("customers", "public")`
is denied (neither `public.customers` nor `customers` is allowlisted). -/
theorem claim_C5_schema_tool_guard_witness :
    ∃ r e, get_table_schema_tool cfgExample "customers" "public" = SchemaToolResult.denied r e :=
  (claim_C5_schema_tool_guard cfgExample "customers" "public").mpr (by decide)

/-- C10 counterexample: `call_tool` runs `pool = await get_db_pool()` before
dispatching, for `get_security_config` too — starting with no pool, the call
creates one, changing the pool handle: it is not free of side effects. -/
theorem claim_C10_counterexample :
    (call_tool_get_security_config {} none).1.1 = some () ∧
    (call_tool_get_security_config {} none).1.1 ≠ none ∧
    (call_tool_get_security_config {} none).1.2 = [DBEffect.createPool] := by
  decide

/-- C10 amended: `get_security_config` returns the Policy snapshot and
issues no database query, but, like every tool call, it first ensures the
connection pool exists: when the handle is unset it creates the pool
(changing the handle); when a pool already exists, all state is unchanged
and no database effect occurs. -/
theorem claim_C10_get_security_config (cfg : SecurityConfig) (db_pool : Option Unit) :
    (call_tool_get_security_config cfg db_pool).2 = get_security_config_snapshot cfg ∧
    (∀ q : String, DBEffect.fetch q ∉ (call_tool_get_security_config cfg db_pool).1.2) ∧
    (∀ p, db_pool = some p →
      (call_tool_get_security_config cfg db_pool).1.1 = db_pool ∧
      (call_tool_get_security_config cfg db_pool).1.2 = []) ∧
    (db_pool = none →
      (call_tool_get_security_config cfg db_pool).1.1 = some () ∧
      (call_tool_get_security_config cfg db_pool).1.2 = [DBEffect.createPool]) := by
  cases db_pool <;> simp [call_tool_get_security_config, get_db_pool]

/-- C10 witness: with an existing pool, the call leaves the handle unchanged
and performs no database effect. -/
theorem claim_C10_get_security_config_witness :
    (call_tool_get_security_config cfgExample (some ())).1.1 = some () ∧
    (call_tool_get_security_config cfgExample (some ())).1.2 = [] :=
  (claim_C10_get_security_config cfgExample (some ())).2.2.1 () rfl

/-- C9: every `query_database` request makes exactly one `audit_log` call at
its terminal outcome — rejected by the classifier, denied by the access
guard, timed out, succeeded, or failed with an execution error — and the
call's `success` field is true exactly for a successful execution; with the
audit toggle on, exactly one audit record is emitted. -/
theorem claim_C9_audit_exactly_one (cfg : SecurityConfig) (query : String)
    (params : List String) (exec : String → List String → ExecResult) :
    (∃ e, (query_database cfg query params exec).2 = [e] ∧
      (e.success = true ↔ ∃ n, (query_database cfg query params exec).1 = Outcome.succeeded n)) ∧
    (cfg.ENABLE_AUDIT_LOG = true →
      (((query_database cfg query params exec).2.map (audit_log cfg)).flatten).length = 1) := by
  rcases hp : query_pipeline cfg query with m | m | fq
  · refine ⟨⟨{ event_type := "QUERY_BLOCKED", query := query, success := false, error := m },
      ?_, ?_⟩, ?_⟩
    · simp [query_database, hp]
    · simp [query_database, hp]
    · intro h
      simp [query_database, hp, audit_log, h]
  · refine ⟨⟨{ event_type := "ACCESS_DENIED", query := query, success := false, error := m },
      ?_, ?_⟩, ?_⟩
    · simp [query_database, hp]
    · simp [query_database, hp]
    · intro h
      simp [query_database, hp, audit_log, h]
  · rcases he : exec fq params with _ | ⟨n, t⟩ | m
    · refine ⟨⟨{ event_type := "QUERY_TIMEOUT", query := fq, success := false, error := timeoutMsg cfg }, ?_, ?_⟩, ?_⟩
      · simp [query_database, hp, he]
      · simp [query_database, hp, he]
      · intro h
        simp [query_database, hp, he, audit_log, h]
    · refine ⟨⟨{ event_type := "QUERY_SUCCESS", query := fq, success := true, rows_returned := n, execution_time := t }, ?_, ?_⟩, ?_⟩
      · simp [query_database, hp, he]
      · simp [query_database, hp, he]
      · intro h
        simp [query_database, hp, he, audit_log, h]
    · refine ⟨⟨{ event_type := "ERROR", success := false, error := m }, ?_, ?_⟩, ?_⟩
      · simp [query_database, hp, he]
      · simp [query_database, hp, he]
      · intro h
        simp [query_database, hp, he, audit_log, h]

/-- C9 witness: a successful execution under the default policy emits
exactly one audit record. -/
theorem claim_C9_audit_exactly_one_witness :
    ((((query_database cfgExample "SELECT 1" []
        (fun _ _ => ExecResult.ok 0 0)).2.map (audit_log cfgExample)).flatten).length = 1) :=
  (claim_C9_audit_exactly_one cfgExample "SELECT 1" [] (fun _ _ => ExecResult.ok 0 0)).2 rfl

theorem keyword_in_writeKeywordMsg (k : String) :
    k.toList <:+: (writeKeywordMsg k).toList := by
  unfold writeKeywordMsg
  simp only [toList_append]
  exact List.infix_append _ _ _

/-- C1: the Classifier accepts a query iff its uppercased, trimmed text
starts with one of SELECT, SHOW, EXPLAIN, DESCRIBE, WITH and contains none
of the eleven write keywords as a substring anywhere; a text without a read
prefix is rejected with the "only read kinds are allowed" reason; a
read-prefixed text that is rejected has a matched write keyword, and the
reason names it; in particular `SELECT created_at FROM updated_log` is
rejected with the reason naming `UPDATE` (a substring of `UPDATED_LOG`). -/
theorem claim_C1_classifier (query : String) :
    ((validate_read_only_query query).1 = true ↔
      ((∃ p ∈ allowed_prefixes, p.toList <+: upperStripped query) ∧
        ∀ k ∈ write_keywords, ¬ (k.toList <:+: upperStripped query))) ∧
    ((∀ p ∈ allowed_prefixes, ¬ (p.toList <+: upperStripped query)) →
      validate_read_only_query query = (false, onlyReadMsg)) ∧
    ((∃ p ∈ allowed_prefixes, p.toList <+: upperStripped query) →
      (validate_read_only_query query).1 = false →
      ∃ k ∈ write_keywords, k.toList <:+: upperStripped query ∧
        (validate_read_only_query query).2 = writeKeywordMsg k ∧
        k.toList <:+: (validate_read_only_query query).2.toList) ∧
    validate_read_only_query "SELECT created_at FROM updated_log"
      = (false, writeKeywordMsg "UPDATE") := by
  by_cases hpre : (allowed_prefixes.any fun p => p.toList.isPrefixOf (upperStripped query)) = true
  · have hpre' : ∃ p ∈ allowed_prefixes, p.toList <+: upperStripped query := by
      rw [List.any_eq_true] at hpre
      obtain ⟨p, hm, hp⟩ := hpre
      exact ⟨p, hm, List.isPrefixOf_iff_prefix.mp hp⟩
    rcases hf : write_keywords.find? (fun k => containsSub k.toList (upperStripped query))
        with _ | k
    · have hres : validate_read_only_query query = (true, "Query validated") := by
        simp only [validate_read_only_query, if_pos hpre, hf]
      have hnone := List.find?_eq_none.mp hf
      refine ⟨?_, ?_, ?_, by decide⟩
      · rw [hres]
        constructor
        · intro _
          refine ⟨hpre', ?_⟩
          intro k hk hinf
          exact hnone k hk ((containsSub_iff _ _).mpr hinf)
        · intro _
          rfl
      · intro hnp
        obtain ⟨p, hm, hp⟩ := hpre'
        exact absurd hp (hnp p hm)
      · intro _ hfalse
        rw [hres] at hfalse
        cases hfalse
    · have hres : validate_read_only_query query = (false, writeKeywordMsg k) := by
        simp only [validate_read_only_query, if_pos hpre, hf]
      have hkmem := List.mem_of_find?_eq_some hf
      have hkp0 := List.find?_some hf
      have hkinf : k.toList <:+: upperStripped query := by
        simpa [containsSub] using hkp0
      refine ⟨?_, ?_, ?_, by decide⟩
      · rw [hres]
        apply iff_of_false
        · simp
        · rintro ⟨_, hall⟩
          exact hall k hkmem hkinf
      · intro hnp
        obtain ⟨p, hm, hp⟩ := hpre'
        exact absurd hp (hnp p hm)
      · intro _ _
        exact ⟨k, hkmem, hkinf, by rw [hres], by rw [hres]; exact keyword_in_writeKeywordMsg k⟩
  · have hres : validate_read_only_query query = (false, onlyReadMsg) := by
      simp only [validate_read_only_query, if_neg hpre]
    have hnp : ∀ p ∈ allowed_prefixes, ¬ (p.toList <+: upperStripped query) := by
      intro p hm hp
      apply hpre
      rw [List.any_eq_true]
      exact ⟨p, hm, List.isPrefixOf_iff_prefix.mpr hp⟩
    refine ⟨?_, fun _ => hres, ?_, by decide⟩
    · rw [hres]
      apply iff_of_false
      · simp
      · rintro ⟨⟨p, hm, hp⟩, _⟩
        exact hnp p hm hp
    · rintro ⟨p, hm, hp⟩ _
      exact absurd hp (hnp p hm)

/-- C1 witness: `DELETE FROM users` has no read prefix, so the classifier
rejects it with the "only read kinds are allowed" reason. -/
theorem claim_C1_classifier_witness :
    validate_read_only_query "DELETE FROM users" = (false, onlyReadMsg) :=
  (claim_C1_classifier "DELETE FROM users").2.1 (by decide)

theorem takeIdent_suffix {s i r : List Char} (h : takeIdent s = some (i, r)) : r <:+ s := by
  cases s with
  | nil => cases h
  | cons c cs =>
    simp only [takeIdent] at h
    split_ifs at h with hc
    · simp only [Option.some.injEq, Prod.mk.injEq] at h
      obtain ⟨-, hr⟩ := h
      rw [← hr]
      exact List.IsSuffix.trans (List.dropWhile_suffix identChar) (List.suffix_cons c cs)

theorem matchIdentPart_suffix {s2 : List Char} {a : Option (List Char)} {b r : List Char}
    (h : matchIdentPart s2 = some (a, b, r)) : r <:+ s2 := by
  unfold matchIdentPart at h
  split at h
  · cases h
  · rename_i id1 s3 hti
    have hs3 : s3 <:+ s2 := takeIdent_suffix hti
    split at h
    · rename_i s4
      split at h
      · rename_i id2 s5 hti2
        have hs5 : s5 <:+ s4 := takeIdent_suffix hti2
        simp only [Option.some.injEq, Prod.mk.injEq] at h
        obtain ⟨-, -, hr⟩ := h
        rw [← hr]
        exact hs5.trans ((List.suffix_cons '.' s4).trans hs3)
      · simp only [Option.some.injEq, Prod.mk.injEq] at h
        obtain ⟨-, -, hr⟩ := h
        rw [← hr]
        exact hs3
    · simp only [Option.some.injEq, Prod.mk.injEq] at h
      obtain ⟨-, -, hr⟩ := h
      rw [← hr]
      exact hs3

theorem matchKw_rest_suffix {kw s : List Char} {a : Option (List Char)} {b r : List Char}
    (h : matchKw kw s = some (a, b, r)) : r <:+ s := by
  unfold matchKw at h
  split_ifs at h with h1 h2
  have hr : r <:+ (s.drop kw.length).dropWhile isSpace := matchIdentPart_suffix h
  exact hr.trans ((List.dropWhile_suffix isSpace).trans (List.drop_suffix kw.length s))

theorem scanKwFuel_mem_occurrence {kw : List Char} :
    ∀ {fuel : Nat} {s : List Char} {m : Option (List Char) × List Char},
      m ∈ scanKwFuel kw fuel s →
      ∃ t r, t <:+ s ∧ matchKw kw t = some (m.1, m.2, r) := by
  intro fuel
  induction fuel with
  | zero =>
    intro s m h
    simp [scanKwFuel] at h
  | succ n ih =>
    intro s m h
    cases s with
    | nil => simp [scanKwFuel] at h
    | cons c cs =>
      rcases hm : matchKw kw (c :: cs) with _ | ⟨sch, tab, rest⟩
      · simp only [scanKwFuel, hm] at h
        obtain ⟨t, r, ht, hmt⟩ := ih h
        exact ⟨t, r, ht.trans (List.suffix_cons c cs), hmt⟩
      · simp only [scanKwFuel, hm] at h
        rcases List.mem_cons.mp h with heq | h2
        · subst heq
          exact ⟨c :: cs, rest, List.suffix_refl _, hm⟩
        · obtain ⟨t, r, ht, hmt⟩ := ih h2
          exact ⟨t, r, ht.trans (matchKw_rest_suffix hm), hmt⟩

theorem mem_insertSet (acc : List String) (y x : String) :
    x ∈ insertSet acc y ↔ x ∈ acc ∨ x = y := by
  unfold insertSet
  split_ifs with hy
  · constructor
    · exact Or.inl
    · rintro (h | rfl)
      · exact h
      · exact hy
  · simp [List.mem_append]

theorem mem_foldl_insertSet :
    ∀ (ms : List (Option (List Char) × List Char)) (acc : List String) (x : String),
      x ∈ ms.foldl (fun a m => insertSet a (mkRef m)) acc ↔
        x ∈ acc ∨ ∃ m ∈ ms, mkRef m = x := by
  intro ms
  induction ms with
  | nil =>
    intro acc x
    simp
  | cons m ms ih =>
    intro acc x
    rw [List.foldl_cons, ih, mem_insertSet]
    simp only [List.mem_cons]
    constructor
    · rintro ((h | h) | ⟨m1, hm1, h⟩)
      · exact Or.inl h
      · exact Or.inr ⟨m, Or.inl rfl, h.symm⟩
      · exact Or.inr ⟨m1, Or.inr hm1, h⟩
    · rintro (h | ⟨m1, hmm, h⟩)
      · exact Or.inl (Or.inl h)
      · rcases hmm with rfl | hm1
        · exact Or.inl (Or.inr h.symm)
        · exact Or.inr ⟨m1, hm1, h⟩

theorem nodup_insertSet (acc : List String) (y : String) (h : acc.Nodup) :
    (insertSet acc y).Nodup := by
  unfold insertSet
  split_ifs with hy
  · exact h
  · rw [List.nodup_append]
    refine ⟨h, List.nodup_singleton y, ?_⟩
    intro a ha hb
    rw [List.mem_singleton] at hb
    subst hb
    exact hy ha

theorem nodup_foldl_insertSet :
    ∀ (ms : List (Option (List Char) × List Char)) (acc : List String), acc.Nodup →
      (ms.foldl (fun a m => insertSet a (mkRef m)) acc).Nodup := by
  intro ms
  induction ms with
  | nil =>
    intro acc h
    exact h
  | cons m ms ih =>
    intro acc h
    rw [List.foldl_cons]
    exact ih _ (nodup_insertSet acc (mkRef m) h)

theorem toLower_isUpper_false (c : Char) : (Char.toLower c).isUpper = false := by
  simp only [Char.toLower, Char.isUpper]
  split
  · rename_i h
    have h90 : ¬ ((Char.ofNat (c.toNat + 32)).val ≤ 90) := by
      intro hc
      have hv : (Char.ofNat (c.toNat + 32)).toNat = c.toNat + 32 := by
        have hvalid : (c.toNat + 32).isValidChar := by
          left
          omega
        simp only [Char.ofNat, dif_pos hvalid]
        simp only [Char.ofNatAux, Char.toNat]
        simp [UInt32.toNat, UInt32.ofNatCore]
      have : (Char.ofNat (c.toNat + 32)).toNat ≤ 90 := by
        simpa [Char.toNat, UInt32.le_def] using hc
      omega
    simp [h90]
  · rename_i h
    simp only [Char.toNat] at h
    simp [UInt32.le_def, BitVec.le_def, UInt32.toNat, decide_eq_false_iff_not] at h ⊢
    omega

theorem mkRef_lower (m : Option (List Char) × List Char) :
    ∀ c ∈ (mkRef m).toList, c.isUpper = false := by
  intro c hc
  unfold mkRef at hc
  rw [asString_toList] at hc
  unfold lowerL at hc
  obtain ⟨d, -, rfl⟩ := List.mem_map.mp hc
  exact toLower_isUpper_false d

theorem mkRef_public {m : Option (List Char) × List Char} (h : m.1 = none) :
    "public.".toList <+: (mkRef m).toList := by
  obtain ⟨sch, tab⟩ := m
  simp only at h
  subst h
  show "public.".toList <+: lowerL ("public".toList ++ '.' :: tab)
  have e : ("public".toList ++ '.' :: tab) = "public.".toList ++ tab := rfl
  rw [e]
  unfold lowerL
  rw [List.map_append]
  have e2 : List.map Char.toLower "public.".toList = "public.".toList := rfl
  rw [e2]
  exact List.prefix_append _ _

/-- C8 counterexample: in `"FROM FROM A"` the second `FROM` (at index 5) is
followed by whitespace and the identifier `A`, so by the claim the result
set should contain `public.a`; but `re.finditer` matches are non-overlapping
— the first match consumes `FROM FROM` (the second `FROM` is its identifier)
and the scan resumes after it, so the extractor returns only `public.from`. -/
theorem claim_C8_counterexample :
    ("FROM A".toList <:+ upperL "FROM FROM A".toList) ∧
    matchKw "FROM".toList "FROM A".toList = some (none, "A".toList, []) ∧
    mkRef (none, "A".toList) = "public.a" ∧
    "public.a" ∉ extract_tables_from_query "FROM FROM A" ∧
    extract_tables_from_query "FROM FROM A" = ["public.from"] := by
  decide

/-- C8 amended: the extractor's result set has no duplicates; every match
found by the left-to-right non-overlapping scan of the uppercased text for
`FROM`/`JOIN` followed by whitespace and an (optionally dot-qualified)
identifier contributes its TableRef to the result set, with the schema
defaulting to `public` when unqualified and both components lower-cased;
and conversely every returned TableRef arises from such a keyword match at
some suffix of the uppercased text.  (An occurrence beginning inside an
earlier match is consumed by it and yields no TableRef of its own.) -/
theorem claim_C8_extractor (query : String) :
    (extract_tables_from_query query).Nodup ∧
    (∀ m : Option (List Char) × List Char,
      (m ∈ scanKw "FROM".toList (upperL query.toList) ∨
        m ∈ scanKw "JOIN".toList (upperL query.toList)) →
      mkRef m ∈ extract_tables_from_query query ∧
      (m.1 = none → "public.".toList <+: (mkRef m).toList) ∧
      (∀ c ∈ (mkRef m).toList, c.isUpper = false)) ∧
    (∀ x ∈ extract_tables_from_query query,
      ∃ (kw : List Char) (m : Option (List Char) × List Char) (t r : List Char),
        (kw = "FROM".toList ∨ kw = "JOIN".toList) ∧
        t <:+ upperL query.toList ∧
        matchKw kw t = some (m.1, m.2, r) ∧
        x = mkRef m ∧ (∀ c ∈ x.toList, c.isUpper = false)) := by
  refine ⟨?_, ?_, ?_⟩
  · unfold extract_tables_from_query
    exact nodup_foldl_insertSet _ _ List.nodup_nil
  · intro m hm
    refine ⟨?_, fun h => mkRef_public h, mkRef_lower m⟩
    unfold extract_tables_from_query
    rw [mem_foldl_insertSet]
    right
    refine ⟨m, ?_, rfl⟩
    rw [List.mem_append]
    exact hm
  · intro x hx
    unfold extract_tables_from_query at hx
    rw [mem_foldl_insertSet] at hx
    rcases hx with h | ⟨m, hm, rfl⟩
    · simp at h
    · rw [List.mem_append] at hm
      rcases hm with hf | hj
      · unfold scanKw at hf
        obtain ⟨t, r, ht, hmt⟩ := scanKwFuel_mem_occurrence hf
        exact ⟨"FROM".toList, m, t, r, Or.inl rfl, ht, hmt, rfl, mkRef_lower m⟩
      · unfold scanKw at hj
        obtain ⟨t, r, ht, hmt⟩ := scanKwFuel_mem_occurrence hj
        exact ⟨"JOIN".toList, m, t, r, Or.inr rfl, ht, hmt, rfl, mkRef_lower m⟩

/-- C8 witness: the dot-qualified match of `FROM public.orders` yields the
lower-cased `public.orders` in the extractor's result set. -/
theorem claim_C8_extractor_witness :
    mkRef (some "PUBLIC".toList, "ORDERS".toList)
      ∈ extract_tables_from_query "SELECT * FROM public.orders" :=
  ((claim_C8_extractor "SELECT * FROM public.orders").2.1
    (some "PUBLIC".toList, "ORDERS".toList) (Or.inl (by decide))).1
